import Mathlib

/-!
Verification of the movie-recommendation core of `app.py`
(recommendation lookup, enrichment clients, and pipeline).

The embedding models:
* Python strings as sequences of Unicode code points (`PyStr := List Nat`);
* the normalization `s.strip().lower()` (`pystrip`, `pylower`, `normalize`);
* the two enrichment clients `fetch_movie_poster` / `fetch_movie_trailer`,
  with the third-party HTTP providers abstracted to an outcome oracle
  (`HttpOutcome`): network failure (where `requests.get` raises), or a
  response with a status code and an optionally-parseable JSON body
  (where `response.json()` raises on a malformed body);
* Python exceptions as an `Except PyError` result;
* `recommend` (lines 94-128), including the in-place normalization of
  `movies['title']` at line 105, which is modelled by returning the new
  state of the title column alongside the result;
* the `/recommend` route handler `recommend_movies` (lines 199-208) and the
  `home` route's reading of the movie list (line 138).

Similarity scores are modelled as exact rationals; the code only ever
compares scores (inside `sorted`), so the order structure is all that is
used.
-/

namespace MovieApp

/-! ### Python strings -/

/-- A Python `str`: a sequence of Unicode code points. -/
abbrev PyStr := List Nat

/-- Embed a Lean string literal as a Python string (code points). -/
def pystr (s : String) : PyStr := s.data.map Char.toNat

/-- The code points stripped by Python's argument-less `str.strip()`
(the code points `c` with `c.isspace()` true). -/
def pySpaceCodes : List Nat :=
  [9, 10, 11, 12, 13, 28, 29, 30, 31, 32, 133, 160, 5760,
   8192, 8193, 8194, 8195, 8196, 8197, 8198, 8199, 8200, 8201, 8202,
   8232, 8233, 8239, 8287, 12288]

/-- Whether a code point is Python whitespace. -/
def isPySpace (n : Nat) : Bool := decide (n ∈ pySpaceCodes)

/-- Python's `str.strip()`: drop whitespace from both ends. -/
def pystrip (s : PyStr) : PyStr :=
  ((s.dropWhile isPySpace).reverse.dropWhile isPySpace).reverse

/-- Case mapping of a single code point under Python's `str.lower`,
modelled on the ASCII range (`A`-`Z` map to `a`-`z`; every other code
point is left unchanged). -/
def lowerChar (n : Nat) : Nat := if 65 ≤ n ∧ n ≤ 90 then n + 32 else n

/-- Python's `str.lower()`: lowercase every code point. -/
def pylower (s : PyStr) : PyStr := s.map lowerChar

/-- The title normalization used for matching: `s.strip().lower()`
(line 102 for the query, line 105 for each catalog title). -/
def normalize (s : PyStr) : PyStr := pylower (pystrip s)

/-! ### Python exceptions and the HTTP provider abstraction -/

/-- The Python exceptions that can escape the modelled code. -/
inductive PyError where
  /-- `requests.get` raised (network failure / timeout). -/
  | connectionError
  /-- `response.json()` raised on a malformed body. -/
  | jsonDecodeError
  /-- A `[...]` lookup on a dict raised (missing key). -/
  | keyError
  /-- Tuple unpacking failed (wrong arity). -/
  | valueError
deriving DecidableEq, Repr

/-- The outcome of one HTTP GET against a provider, abstracted over the
parsed shape `β` of a well-formed JSON body. `body = none` means the body
was not valid JSON, so `response.json()` raises. -/
inductive HttpOutcome (β : Type) where
  /-- `requests.get` itself raised (connection error, timeout, ...). -/
  | networkFailure
  /-- A response arrived, with its status code and (optional) parsed body. -/
  | response (status : Nat) (body : Option β)

/-- The parsed body of an OMDb poster response, abstracted to its optional
`Poster` field (`none` = key absent). -/
abbrev PosterBody := Option PyStr

/-- One element of the YouTube `items` array, abstracted to its optional
`id.videoId` field (`none` = key absent). -/
abbrev TrailerItem := Option PyStr

/-- The parsed body of a YouTube search response, abstracted to its
optional `items` array (`none` = key absent). -/
abbrev TrailerBody := Option (List TrailerItem)

/-- The placeholder value of the `Poster` field: `"N/A"`. -/
def NA : PyStr := pystr "N/A"

/-- The YouTube watch URL built from a video id (line 88). -/
def youtubeWatch (videoId : PyStr) : PyStr :=
  pystr "https://www.youtube.com/watch?v=" ++ videoId

/-- Lines 68-77: `fetch_movie_poster`. The provider oracle gives the HTTP
outcome of `requests.get` for each queried title. On a 200 response whose
body parses, the `Poster` field is returned unless absent or `"N/A"`;
every other response returns `None`; `requests.get` and `response.json()`
exceptions propagate. -/
def fetch_movie_poster (provider : PyStr → HttpOutcome PosterBody)
    (movie_title : PyStr) : Except PyError (Option PyStr) :=
  match provider movie_title with
  | .networkFailure => .error .connectionError
  | .response status body =>
      if status = 200 then
        match body with
        | none => .error .jsonDecodeError
        | some data =>
            match data with
            | some poster => if poster = NA then .ok none else .ok (some poster)
            | none => .ok none
      else .ok none

/-- Lines 80-89: `fetch_movie_trailer`. On a 200 response whose body
parses and has a nonempty `items` array, builds the watch URL from
`items[0]['id']['videoId']` (a `KeyError` if the id is absent); every
other response returns `None`; `requests.get` and `response.json()`
exceptions propagate. -/
def fetch_movie_trailer (provider : PyStr → HttpOutcome TrailerBody)
    (movie_title : PyStr) : Except PyError (Option PyStr) :=
  match provider movie_title with
  | .networkFailure => .error .connectionError
  | .response status body =>
      if status = 200 then
        match body with
        | none => .error .jsonDecodeError
        | some data =>
            match data with
            | some items =>
                match items with
                | [] => .ok none
                | item :: _ =>
                    match item with
                    | some videoId => .ok (some (youtubeWatch videoId))
                    | none => .error .keyError
            | none => .ok none
      else .ok none

/-! ### The ranking sort (line 114) -/

/-- The order in which `sorted(list(enumerate(distances)), reverse=True,
key=lambda x: x[1])` arranges two entries: strictly larger score first;
among equal scores, original (= index) order. Python's `sorted` is stable
and the input `enumerate(distances)` is listed in increasing index order,
so its stable descending sort is exactly the sort by this relation. -/
def leKey (p q : Nat × ℚ) : Prop := q.2 < p.2 ∨ (p.2 = q.2 ∧ p.1 ≤ q.1)

instance : DecidableRel leKey := fun _ _ => inferInstanceAs (Decidable (_ ∨ _))

/-- `sorted(·, reverse=True, key=lambda x: x[1])` on an enumerated list. -/
def pySortDesc (l : List (Nat × ℚ)) : List (Nat × ℚ) :=
  List.insertionSort leKey l

/-- Line 114: `sorted(list(enumerate(distances)), reverse=True,
key=lambda x: x[1])[1:21]` — the ranked `(index, score)` pairs served to
the enrichment loop. -/
def rank (distances : List ℚ) : List (Nat × ℚ) :=
  ((pySortDesc distances.enum).drop 1).take 20

/-! ### The recommendation pipeline (lines 94-128) -/

/-- Lines 116-126: the enrichment loop. For each ranked pair, reads the
title at its index (`movies.iloc[i[0]].title`), fetches a poster and a
trailer for it, and appends to the three parallel lists. An exception
from either fetch propagates and aborts the whole loop. -/
def enrichLoop (titles : List PyStr)
    (posterProvider : PyStr → HttpOutcome PosterBody)
    (trailerProvider : PyStr → HttpOutcome TrailerBody) :
    List (Nat × ℚ) →
      Except PyError (List PyStr × List (Option PyStr) × List (Option PyStr))
  | [] => .ok ([], [], [])
  | i :: rest =>
      let movie_title := titles.getD i.1 []
      match fetch_movie_poster posterProvider movie_title with
      | .error e => .error e
      | .ok poster_url =>
          match fetch_movie_trailer trailerProvider movie_title with
          | .error e => .error e
          | .ok trailer_url =>
              match enrichLoop titles posterProvider trailerProvider rest with
              | .error e => .error e
              | .ok (ms, ps, ts) =>
                  .ok (movie_title :: ms, poster_url :: ps, trailer_url :: ts)

/-- What `recommend` returns: either the two-element tuple `[], []` of the
early-exit paths (lines 99 and 110) or the three-element tuple of the
success path (line 128). -/
inductive RecReturn where
  /-- `return [], []` — empty recommendations and posters only. -/
  | two (recommended_movies : List PyStr) (recommended_posters : List (Option PyStr))
  /-- `return recommended_movies, recommended_posters, trailers`. -/
  | three (recommended_movies : List PyStr)
      (recommended_posters trailers : List (Option PyStr))
deriving DecidableEq, Repr

/-- Line 112: `movies[movies['title'] == movie].index[0]` — the first
position holding the given title. -/
def firstIdx (titles : List PyStr) (m : PyStr) : Nat :=
  match titles with
  | [] => 0
  | t :: ts => if t = m then 0 else firstIdx ts m + 1

/-- Lines 94-128: `recommend(movie)`. The first component of the result is
the state of the catalog's title column after the call (line 105 overwrites
`movies['title']` with its stripped-and-lowercased form on every non-blank
query); the second is the returned tuple, or the exception that escaped.
Out-of-range indexing into `similarity` / `movies.iloc` is modelled with
`getD` defaults; the startup invariant (catalog size = matrix dimension)
makes the defaults unreachable, and theorems carry it as a hypothesis. -/
def recommend (titles : List PyStr) (similarity : List (List ℚ))
    (posterProvider : PyStr → HttpOutcome PosterBody)
    (trailerProvider : PyStr → HttpOutcome TrailerBody)
    (movie : Option PyStr) : List PyStr × Except PyError RecReturn :=
  match movie with
  | none => (titles, .ok (.two [] []))            -- line 97: movie is None
  | some mv =>
      if pystrip mv = [] then                     -- line 97: movie.strip() == ""
        (titles, .ok (.two [] []))                -- line 99
      else
        let m := normalize mv                     -- line 102
        let titles' := titles.map normalize       -- line 105 (in-place!)
        if m ∈ titles' then
          let movie_index := firstIdx titles' m       -- line 112
          let distances := similarity.getD movie_index []  -- line 113
          let movies_list := rank distances            -- line 114
          match enrichLoop titles' posterProvider trailerProvider movies_list with
          | .ok (ms, ps, ts) => (titles', .ok (.three ms ps ts))
          | .error e => (titles', .error e)
        else
          (titles', .ok (.two [] []))             -- line 110
        -- line 108 tests `movie not in movies['title'].values`; the two
        -- branches above are swapped accordingly.

/-- Line 138: the home page's movie list is read straight from the shared
`movies['title']` column. -/
def home (titles : List PyStr) : List PyStr := titles

/-- Lines 199-208: the `/recommend` route handler. It unpacks the result
of `recommend` into three variables; on the early-exit paths `recommend`
returns a 2-tuple, so the unpacking raises `ValueError`. On success it
renders the page from `movie_list` (the post-call title column) and the
three sequences. -/
def recommend_movies (titles : List PyStr) (similarity : List (List ℚ))
    (posterProvider : PyStr → HttpOutcome PosterBody)
    (trailerProvider : PyStr → HttpOutcome TrailerBody)
    (selected_movie : Option PyStr) :
    List PyStr ×
      Except PyError (List PyStr × List PyStr × List (Option PyStr) × List (Option PyStr)) :=
  match recommend titles similarity posterProvider trailerProvider selected_movie with
  | (titles', .ok (.three ms ps ts)) => (titles', .ok (home titles', ms, ps, ts))
  | (titles', .ok (.two _ _)) => (titles', .error .valueError)
  | (titles', .error e) => (titles', .error e)

/-- The recommended-titles sequence carried by a `recommend` result
(empty when an exception escaped). -/
def returnedTitles (r : List PyStr × Except PyError RecReturn) : List PyStr :=
  match r.2 with
  | .ok (.two ms _) => ms
  | .ok (.three ms _ _) => ms
  | .error _ => []

/-! ### Concrete fixtures -/

/-- The rational 4/5 = 0.8. -/
def q08 : ℚ := ⟨4, 5, by decide, by decide⟩

/-- The rational 3/10 = 0.3. -/
def q03 : ℚ := ⟨3, 10, by decide, by decide⟩

/-- The rational 1/2 = 0.5. -/
def q05 : ℚ := ⟨1, 2, by decide, by decide⟩

/-- The three-movie catalog of the spec's scenario. -/
def exTitles : List PyStr :=
  [pystr "Inception", pystr "Interstellar", pystr "Tenet"]

/-- A symmetric similarity matrix whose row for "Inception" is
`[1.0, 0.8, 0.3]`, as in the spec's scenario. -/
def exSim : List (List ℚ) :=
  [[1, q08, q03], [q08, 1, q05], [q03, q05, 1]]

/-- A poster provider that always answers 404 (poster lookup misses). -/
def poster404 : PyStr → HttpOutcome PosterBody := fun _ => .response 404 none

/-- A trailer provider that always answers 404 (trailer lookup misses). -/
def trailer404 : PyStr → HttpOutcome TrailerBody := fun _ => .response 404 none

/-! ### Lemmas about the string normalization -/

theorem lowerChar_lowerChar (n : Nat) : lowerChar (lowerChar n) = lowerChar n := by
  unfold lowerChar
  split_ifs <;> omega

theorem isPySpace_lowerChar (n : Nat) : isPySpace (lowerChar n) = isPySpace n := by
  unfold lowerChar
  split_ifs with h
  · simp only [isPySpace, pySpaceCodes, List.mem_cons, List.not_mem_nil, or_false,
      decide_eq_decide]
    omega
  · rfl

theorem pylower_pylower (s : PyStr) : pylower (pylower s) = pylower s := by
  unfold pylower
  rw [List.map_map]
  exact List.map_congr_left fun n _ => lowerChar_lowerChar n

theorem dropWhile_head_false {p : Nat → Bool} {l : List Nat} {a : Nat} {t : List Nat}
    (h : l.dropWhile p = a :: t) : p a = false := by
  induction l with
  | nil => simp at h
  | cons x xs ih =>
      rw [List.dropWhile_cons] at h
      split_ifs at h with hx
      · exact ih h
      · cases h
        simpa using hx

theorem dropWhile_cons_of_false {p : Nat → Bool} {a : Nat} {t : List Nat}
    (h : p a = false) : (a :: t).dropWhile p = a :: t := by
  rw [List.dropWhile_cons, if_neg (by simp [h])]

theorem pystrip_pylower (s : PyStr) : pystrip (pylower s) = pylower (pystrip s) := by
  have hcomp : (isPySpace ∘ lowerChar) = isPySpace := funext isPySpace_lowerChar
  unfold pystrip pylower
  rw [List.dropWhile_map, hcomp, ← List.map_reverse, List.dropWhile_map, hcomp,
    ← List.map_reverse]

theorem pystrip_pystrip (s : PyStr) : pystrip (pystrip s) = pystrip s := by
  unfold pystrip
  set u := s.dropWhile isPySpace with hu
  set v := u.reverse.dropWhile isPySpace with hv
  cases hvv : v with
  | nil => simp [hvv]
  | cons a t =>
      -- the stripped string starts with a non-space and ends with a non-space
      have ha : isPySpace a = false := dropWhile_head_false (hv ▸ hvv)
      cases huu : u with
      | nil => rw [huu] at hv; simp [hv] at hvv
      | cons b u' =>
          have hb : isPySpace b = false := dropWhile_head_false (hu ▸ huu)
          -- v is a suffix of u.reverse, hence v.reverse is a prefix of u
          obtain ⟨pre, hpre⟩ : ∃ pre, pre ++ v = u.reverse := List.dropWhile_suffix _
          have hurev : u = v.reverse ++ pre.reverse := by
            rw [← List.reverse_reverse u, ← hpre, List.reverse_append]
          cases hvr : v.reverse with
          | nil => rw [List.reverse_eq_nil_iff] at hvr; simp [hvr] at hvv
          | cons c w =>
              have hcb : c = b := by
                rw [huu, hvr] at hurev
                exact (List.cons.injEq .. ▸ hurev).1.symm
              -- dropping leading spaces from v.reverse and from v is a no-op
              have h1 : v.reverse.dropWhile isPySpace = v.reverse := by
                rw [hvr]; exact dropWhile_cons_of_false (hcb ▸ hb)
              have h2 : v.dropWhile isPySpace = v := by
                rw [hvv]; exact dropWhile_cons_of_false ha
              rw [← hvv, h1, List.reverse_reverse, h2]

/-- Claim C10: the title normalization `s.strip().lower()` is idempotent:
normalizing an already-normalized string changes nothing, so normalizing
catalog titles once at load time and the input title once per query gives
consistent comparisons. -/
theorem normalize_idempotent (s : PyStr) : normalize (normalize s) = normalize s := by
  unfold normalize
  rw [pystrip_pylower, pylower_pylower, pystrip_pystrip]

/-! ### Lemmas about `firstIdx` -/

theorem firstIdx_lt_length {titles : List PyStr} {m : PyStr} (h : m ∈ titles) :
    firstIdx titles m < titles.length := by
  induction titles with
  | nil => simp at h
  | cons t ts ih =>
      rw [firstIdx]
      split_ifs with ht
      · simp
      · have : m ∈ ts := by
          rcases List.mem_cons.1 h with h' | h'
          · exact absurd h'.symm ht
          · exact h'
        simpa using ih this

theorem getD_firstIdx {titles : List PyStr} {m : PyStr} (h : m ∈ titles) (d : PyStr) :
    titles.getD (firstIdx titles m) d = m := by
  induction titles with
  | nil => simp at h
  | cons t ts ih =>
      rw [firstIdx]
      split_ifs with ht
      · simpa using ht
      · have : m ∈ ts := by
          rcases List.mem_cons.1 h with h' | h'
          · exact absurd h'.symm ht
          · exact h'
        simpa using ih this

/-! ### Lemmas about `enum` -/

theorem mem_enum_fst_lt {l : List ℚ} {p : Nat × ℚ} (h : p ∈ l.enum) :
    p.1 < l.length := by
  rw [List.mem_enum_iff_getElem?] at h
  exact (List.getElem?_eq_some_iff.1 h).1

theorem mem_enum_snd {l : List ℚ} {p : Nat × ℚ} (h : p ∈ l.enum) :
    p.2 = l.getD p.1 0 := by
  have hlt := mem_enum_fst_lt h
  rw [List.mem_enum_iff_getElem?, List.getElem?_eq_getElem hlt] at h
  rw [List.getD_eq_getElem _ _ hlt]
  exact (Option.some_inj.1 h).symm

theorem getD_mem_enum {l : List ℚ} {i : Nat} (h : i < l.length) :
    (i, l.getD i 0) ∈ l.enum := by
  rw [List.mem_enum_iff_getElem?, List.getD_eq_getElem _ _ h]
  exact List.getElem?_eq_getElem h

/-! ### Lemmas about the ranking sort -/

instance : IsTotal (Nat × ℚ) leKey :=
  ⟨fun p q => by
    unfold leKey
    rcases lt_trichotomy p.2 q.2 with h | h | h
    · exact Or.inr (Or.inl h)
    · rcases Nat.le_total p.1 q.1 with h' | h'
      · exact Or.inl (Or.inr ⟨h, h'⟩)
      · exact Or.inr (Or.inr ⟨h.symm, h'⟩)
    · exact Or.inl (Or.inl h)⟩

instance : IsTrans (Nat × ℚ) leKey :=
  ⟨fun p q r hpq hqr => by
    unfold leKey at *
    rcases hpq with h1 | ⟨h1, h1'⟩ <;> rcases hqr with h2 | ⟨h2, h2'⟩
    · exact Or.inl (h2.trans h1)
    · exact Or.inl (h2 ▸ h1)
    · exact Or.inl (h1 ▸ h2)
    · exact Or.inr ⟨h1.trans h2, h1'.trans h2'⟩⟩

theorem pySortDesc_perm (l : List (Nat × ℚ)) : (pySortDesc l).Perm l :=
  List.perm_insertionSort leKey l

theorem pySortDesc_sorted (l : List (Nat × ℚ)) : List.Sorted leKey (pySortDesc l) :=
  List.sorted_insertionSort leKey l

/-- If one entry's score strictly dominates every other entry's, the
descending sort puts that entry first. -/
theorem pySortDesc_strict_max_head {l : List (Nat × ℚ)} {p : Nat × ℚ}
    (hp : p ∈ l) (hmax : ∀ q ∈ l, q ≠ p → q.2 < p.2) :
    ∃ t, pySortDesc l = p :: t := by
  have hpL : p ∈ pySortDesc l := (pySortDesc_perm l).mem_iff.2 hp
  cases hL : pySortDesc l with
  | nil => rw [hL] at hpL; simp at hpL
  | cons a t =>
      by_cases hap : a = p
      · exact ⟨t, by rw [hap]⟩
        -- (the goal was generalized by `cases hL` to `a :: t = p :: t`)
      · exfalso
        rw [hL] at hpL
        have hpt : p ∈ t := by
          rcases List.mem_cons.1 hpL with h | h
          · exact absurd h.symm hap
          · exact h
        have haL : a ∈ l := (pySortDesc_perm l).subset (hL ▸ List.mem_cons_self a t)
        have ha2 : a.2 < p.2 := hmax a haL hap
        have hsorted := pySortDesc_sorted l
        rw [hL, List.sorted_cons] at hsorted
        rcases hsorted.1 p hpt with h | ⟨h, _⟩
        · exact absurd ha2 (lt_asymm h)
        · exact absurd ha2 (h ▸ lt_irrefl _)

/-! ### Lemmas about `rank` -/

theorem rank_length (distances : List ℚ) :
    (rank distances).length = min 20 (distances.length - 1) := by
  have hS : (pySortDesc distances.enum).length = distances.length := by
    rw [(pySortDesc_perm distances.enum).length_eq, List.enum_length]
  simp only [rank, List.length_take, List.length_drop, hS]

theorem rank_fst_lt {distances : List ℚ} {q : Nat × ℚ} (hq : q ∈ rank distances) :
    q.1 < distances.length := by
  have h1 : q ∈ pySortDesc distances.enum :=
    List.drop_subset 1 _ (List.take_subset 20 _ hq)
  exact mem_enum_fst_lt ((pySortDesc_perm distances.enum).subset h1)

/-- If the entry at `idx` scores strictly above every other entry, `idx` is
the (dropped) head of the descending sort and never appears in the ranked
tail. -/
theorem rank_strict_max_not_mem {distances : List ℚ} {idx : Nat}
    (hidx : idx < distances.length)
    (hmax : ∀ j, j < distances.length → j ≠ idx →
      distances.getD j 0 < distances.getD idx 0) :
    idx ∉ (rank distances).map Prod.fst := by
  have hp : (idx, distances.getD idx 0) ∈ distances.enum := getD_mem_enum hidx
  have hmax' : ∀ q ∈ distances.enum, q ≠ (idx, distances.getD idx 0) →
      q.2 < distances.getD idx 0 := by
    intro q hq hqp
    have h1 := mem_enum_fst_lt hq
    have h2 := mem_enum_snd hq
    by_cases hj : q.1 = idx
    · rw [hj] at h2
      exact absurd (Prod.ext_iff.2 ⟨hj, h2⟩) hqp
    · exact h2 ▸ hmax q.1 h1 hj
  obtain ⟨t, ht⟩ := pySortDesc_strict_max_head hp hmax'
  have hperm : ((pySortDesc distances.enum).map Prod.fst).Perm
      (List.range distances.length) := by
    have h := (pySortDesc_perm distances.enum).map Prod.fst
    rwa [List.enum_map_fst] at h
  have hnd : ((pySortDesc distances.enum).map Prod.fst).Nodup :=
    hperm.symm.nodup (List.nodup_range distances.length)
  rw [ht, List.map_cons, List.nodup_cons] at hnd
  intro hmem
  rcases List.mem_map.1 hmem with ⟨q, hq, hq1⟩
  have hqt : q ∈ t := by
    unfold rank at hq
    rw [ht, List.drop_one, List.tail_cons] at hq
    exact List.take_subset 20 t hq
  have hq1t : q.1 ∈ List.map Prod.fst t := List.mem_map_of_mem Prod.fst hqt
  rw [hq1] at hq1t
  exact hnd.1 hq1t

/-! ### Lemmas about the enrichment loop and the success path -/

theorem enrichLoop_ok {titles : List PyStr}
    {pP : PyStr → HttpOutcome PosterBody} {tP : PyStr → HttpOutcome TrailerBody} :
    ∀ {ml : List (Nat × ℚ)} {ms : List PyStr} {ps ts : List (Option PyStr)},
    enrichLoop titles pP tP ml = .ok (ms, ps, ts) →
    ms = ml.map (fun i => titles.getD i.1 []) ∧
    ps.length = ml.length ∧ ts.length = ml.length ∧
    ∀ k, k < ml.length →
      fetch_movie_poster pP (ms.getD k []) = .ok (ps.getD k none) ∧
      fetch_movie_trailer tP (ms.getD k []) = .ok (ts.getD k none) := by
  intro ml
  induction ml with
  | nil =>
      intro ms ps ts h
      rw [enrichLoop] at h
      injection h with h'
      obtain ⟨rfl, rfl, rfl⟩ : [] = ms ∧ [] = ps ∧ [] = ts := by
        simpa [Prod.ext_iff] using h'
      simp
  | cons i rest ih =>
      intro ms ps ts h
      rw [enrichLoop] at h
      cases hp : fetch_movie_poster pP (titles.getD i.1 []) with
      | error e => rw [hp] at h; exact absurd h (by simp)
      | ok poster_url =>
          rw [hp] at h
          cases htr : fetch_movie_trailer tP (titles.getD i.1 []) with
          | error e => rw [htr] at h; exact absurd h (by simp)
          | ok trailer_url =>
              rw [htr] at h
              cases he : enrichLoop titles pP tP rest with
              | error e => rw [he] at h; exact absurd h (by simp)
              | ok triple =>
                  obtain ⟨ms', ps', ts'⟩ := triple
                  rw [he] at h
                  injection h with h'
                  obtain ⟨h1, h2, h3⟩ : titles.getD i.1 [] :: ms' = ms ∧
                      poster_url :: ps' = ps ∧ trailer_url :: ts' = ts := by
                    simpa [Prod.ext_iff] using h'
                  subst h1; subst h2; subst h3
                  obtain ⟨ihm, ihp, iht, ihk⟩ := ih he
                  refine ⟨by simp [ihm], by simp [ihp], by simp [iht], ?_⟩
                  intro k hk
                  cases k with
                  | zero =>
                      simp only [List.getD_cons_zero]
                      exact ⟨hp, htr⟩
                  | succ k' =>
                      simp only [List.getD_cons_succ]
                      exact ihk k' (by simpa using hk)

/-- On the success path, `recommend` found the normalized title in the
normalized catalog and returned exactly what the enrichment loop produced
on the ranked row of the (first) matching index. -/
theorem recommend_ok_three {titles : List PyStr} {sim : List (List ℚ)}
    {pP : PyStr → HttpOutcome PosterBody} {tP : PyStr → HttpOutcome TrailerBody}
    {mv : PyStr} {ms : List PyStr} {ps ts : List (Option PyStr)}
    (h : (recommend titles sim pP tP (some mv)).2 = .ok (.three ms ps ts)) :
    normalize mv ∈ titles.map normalize ∧
    enrichLoop (titles.map normalize) pP tP
        (rank (sim.getD (firstIdx (titles.map normalize) (normalize mv)) [])) =
      .ok (ms, ps, ts) := by
  by_cases hblank : pystrip mv = []
  · rw [recommend, if_pos hblank] at h
    exact absurd h (by simp)
  · simp only [recommend] at h
    rw [if_neg hblank] at h
    by_cases hmem : normalize mv ∈ titles.map normalize
    · refine ⟨hmem, ?_⟩
      rw [if_pos hmem] at h
      cases he : enrichLoop (titles.map normalize) pP tP
          (rank (sim.getD (firstIdx (titles.map normalize) (normalize mv)) [])) with
      | error e => rw [he] at h; exact absurd h (by simp)
      | ok triple =>
          obtain ⟨ms', ps', ts'⟩ := triple
          rw [he] at h
          simp only [Except.ok.injEq, RecReturn.three.injEq] at h
          obtain ⟨rfl, rfl, rfl⟩ := h
          rfl
    · rw [if_neg hmem] at h
      exact absurd h (by simp)

/-! ### Further fixtures for the enrichment claims -/

/-- A poster provider whose network call fails for "interstellar" and
succeeds (with a poster) for every other title. -/
def posterBoomInterstellar : PyStr → HttpOutcome PosterBody := fun t =>
  if t = pystr "interstellar" then .networkFailure
  else .response 200 (some (some (pystr "http://img/poster.jpg")))

/-- A trailer provider that always succeeds with one video result. -/
def trailerOK : PyStr → HttpOutcome TrailerBody := fun _ =>
  .response 200 (some (some [some (pystr "dQw4w9WgXcQ")]))

/-- A poster provider that always succeeds with a poster. -/
def posterOK : PyStr → HttpOutcome PosterBody := fun _ =>
  .response 200 (some (some (pystr "http://img/poster.jpg")))

/-- `posterOK` degraded to a 404 miss for "tenet" only. -/
def posterMissTenet : PyStr → HttpOutcome PosterBody := fun t =>
  if t = pystr "tenet" then .response 404 none else posterOK t

/-- `trailerOK` degraded to an empty search result for "tenet" only. -/
def trailerMissTenet : PyStr → HttpOutcome TrailerBody := fun t =>
  if t = pystr "tenet" then .response 200 (some (some [])) else trailerOK t

/-! ### Claim theorems -/

/-- Claim C1 (code bug witness): for blank, absent, and unknown titles,
`recommend` returns the 2-tuple `([], [])` of lines 99/110 — not empty
sequences in the 3-tuple shape of the success path — and the `/recommend`
handler's 3-way unpacking (line 201) therefore raises `ValueError`
instead of rendering an empty recommendation result. -/
theorem recommend_blank_returns_two_tuple :
    recommend exTitles exSim poster404 trailer404 (some (pystr "   ")) =
      (exTitles, .ok (.two [] [])) ∧
    recommend exTitles exSim poster404 trailer404 none =
      (exTitles, .ok (.two [] [])) ∧
    recommend exTitles exSim poster404 trailer404 (some (pystr "Nonexistent Movie")) =
      (exTitles.map normalize, .ok (.two [] [])) ∧
    recommend_movies exTitles exSim poster404 trailer404 (some (pystr "   ")) =
      (exTitles, .error .valueError) ∧
    recommend_movies exTitles exSim poster404 trailer404 none =
      (exTitles, .error .valueError) ∧
    recommend_movies exTitles exSim poster404 trailer404
        (some (pystr "Nonexistent Movie")) =
      (exTitles.map normalize, .error .valueError) :=
  ⟨rfl, rfl, rfl, rfl, rfl, rfl⟩

/-- Claim C2 counterexample: on the catalog `["a", "b"]` whose similarity
row for "b" is `[1, 1]` (a tie at the maximum), the stable descending sort
puts index 0 first, the dropped head is NOT the queried movie, and
`recommend "b"` returns the queried movie "b" itself. -/
theorem recommend_tie_includes_queried_cex :
    normalize (pystr "b") ∈
      returnedTitles (recommend [pystr "a", pystr "b"] [[1, 1], [1, 1]]
        poster404 trailer404 (some (pystr "b"))) := by decide

/-- Claim C3 (code bug witness): on the spec's scenario catalog, querying
"  INCEPTION  " returns the right movies in the right order but with
lowercased titles — `["interstellar", "tenet"]`, not the stored
`["Interstellar", "Tenet"]` — because line 105 overwrote the stored
titles with their normalized forms before the loop read them back. -/
theorem recommend_scenario_lowercased :
    recommend exTitles exSim poster404 trailer404 (some (pystr "  INCEPTION  ")) =
      (exTitles.map normalize,
        .ok (.three [pystr "interstellar", pystr "tenet"] [none, none] [none, none])) ∧
    pystr "interstellar" ≠ pystr "Interstellar" :=
  ⟨rfl, by decide⟩

/-- Claim C4 (code bug witness): a single `recommend` call rewrites the
shared title column (line 105), so the home page's movie list (line 138)
observably changes from the loaded catalog to its lowercased form. -/
theorem recommend_mutates_catalog_titles :
    home (recommend exTitles exSim poster404 trailer404 (some (pystr "Inception"))).1 =
      [pystr "inception", pystr "interstellar", pystr "tenet"] ∧
    home (recommend exTitles exSim poster404 trailer404 (some (pystr "Inception"))).1 ≠
      home exTitles :=
  ⟨rfl, by decide⟩

/-- Claim C7 counterexample: a network failure makes `requests.get` raise
and a malformed 200 body makes `response.json()` raise, in both clients;
the exception propagates instead of an absent result being returned. -/
theorem fetch_network_failure_raises_cex :
    fetch_movie_poster (fun _ => .networkFailure) (pystr "Tenet") =
      .error .connectionError ∧
    fetch_movie_trailer (fun _ => .networkFailure) (pystr "Tenet") =
      .error .connectionError ∧
    fetch_movie_poster (fun _ => .response 200 none) (pystr "Tenet") =
      .error .jsonDecodeError ∧
    fetch_movie_trailer (fun _ => .response 200 none) (pystr "Tenet") =
      .error .jsonDecodeError :=
  ⟨rfl, rfl, rfl, rfl⟩

/-- Claim C8 counterexample: when the poster fetch for the first
recommended movie ("interstellar") raises, the whole `recommend` call
aborts with the exception — the other recommended movie ("tenet") loses
its title, poster, and trailer slots, and the request does not complete. -/
theorem recommend_enrichment_exception_aborts_cex :
    recommend exTitles exSim posterBoomInterstellar trailerOK
        (some (pystr "Inception")) =
      (exTitles.map normalize, .error .connectionError) := rfl

/-- Claim C5: for a title found in the catalog, the recommended sequence
has length exactly `min 20 (catalogSize - 1)`: the sort keeps all
`catalogSize` entries, one is dropped, and at most 20 are taken — with a
small catalog fewer than 20 results come back, with no padding. -/
theorem recommend_length_min20
    {titles : List PyStr} {sim : List (List ℚ)}
    {pP : PyStr → HttpOutcome PosterBody} {tP : PyStr → HttpOutcome TrailerBody}
    {mv : PyStr} {ms : List PyStr} {ps ts : List (Option PyStr)}
    (hsim : sim.length = titles.length)
    (hrows : ∀ row ∈ sim, row.length = titles.length)
    (h : (recommend titles sim pP tP (some mv)).2 = .ok (.three ms ps ts)) :
    ms.length = min 20 (titles.length - 1) := by
  obtain ⟨hmem, he⟩ := recommend_ok_three h
  have hidxlen : firstIdx (titles.map normalize) (normalize mv) <
      (titles.map normalize).length := firstIdx_lt_length hmem
  rw [List.length_map] at hidxlen
  have hidxsim : firstIdx (titles.map normalize) (normalize mv) < sim.length := by
    omega
  have hdmem : sim.getD (firstIdx (titles.map normalize) (normalize mv)) [] ∈ sim := by
    rw [List.getD_eq_getElem _ _ hidxsim]
    exact List.getElem_mem hidxsim
  have hdlen := hrows _ hdmem
  obtain ⟨hmseq, -, -, -⟩ := enrichLoop_ok he
  rw [hmseq, List.length_map, rank_length, hdlen]

/-- Claim C9: every successful recommendation result consists of three
sequences of equal length, and at each position `k` the poster and the
trailer are exactly what the two clients fetched for the `k`-th title. -/
theorem recommend_positional_alignment
    {titles : List PyStr} {sim : List (List ℚ)}
    {pP : PyStr → HttpOutcome PosterBody} {tP : PyStr → HttpOutcome TrailerBody}
    {movie : Option PyStr} {ms : List PyStr} {ps ts : List (Option PyStr)}
    (h : (recommend titles sim pP tP movie).2 = .ok (.three ms ps ts)) :
    ms.length = ps.length ∧ ps.length = ts.length ∧
    ∀ k, k < ms.length →
      fetch_movie_poster pP (ms.getD k []) = .ok (ps.getD k none) ∧
      fetch_movie_trailer tP (ms.getD k []) = .ok (ts.getD k none) := by
  cases movie with
  | none => exact absurd h (by simp [recommend])
  | some mv =>
      obtain ⟨hmem, he⟩ := recommend_ok_three h
      obtain ⟨hmseq, hps, hts, hk⟩ := enrichLoop_ok he
      have hml : ms.length =
          (rank (sim.getD (firstIdx (titles.map normalize) (normalize mv)) [])).length := by
        rw [hmseq, List.length_map]
      refine ⟨by rw [hml, hps], by rw [hps, hts], ?_⟩
      intro k hkk
      exact hk k (by omega)

/-- Claim C6: the ranked slice feeding the recommendations (line 114) is
sorted by weakly descending score, and entries with equal scores stay in
increasing catalog-index (insertion) order — the stable-sort tie-break. -/
theorem rank_sorted_descending (distances : List ℚ) :
    List.Pairwise (fun p q : Nat × ℚ => q.2 ≤ p.2 ∧ (p.2 = q.2 → p.1 < q.1))
      (rank distances) := by
  have hsorted : List.Pairwise leKey (pySortDesc distances.enum) :=
    pySortDesc_sorted distances.enum
  have hperm : ((pySortDesc distances.enum).map Prod.fst).Perm
      (List.range distances.length) := by
    have h := (pySortDesc_perm distances.enum).map Prod.fst
    rwa [List.enum_map_fst] at h
  have hnd : ((pySortDesc distances.enum).map Prod.fst).Nodup :=
    hperm.symm.nodup (List.nodup_range distances.length)
  have hne : List.Pairwise (fun p q : Nat × ℚ => p.1 ≠ q.1)
      (pySortDesc distances.enum) := List.pairwise_map.1 hnd
  have hsub : (rank distances).Sublist (pySortDesc distances.enum) := by
    unfold rank
    exact (List.take_sublist _ _).trans (List.drop_sublist _ _)
  refine List.Pairwise.sublist hsub ((hsorted.and hne).imp ?_)
  rintro p q ⟨hk, hne'⟩
  rcases hk with hlt | ⟨heq, hle⟩
  · refine ⟨hlt.le, fun he => ?_⟩
    exfalso
    rw [he] at hlt
    exact lt_irrefl _ hlt
  · exact ⟨heq.symm.le, fun _ => lt_of_le_of_ne hle hne'⟩

/-- Claim C2 (amended): when the queried movie's self-similarity is
strictly greater than its similarity to every other catalog entry (and
normalized titles are distinct), the head dropped by `[1:21]` is the
queried movie itself, so the returned sequence never contains it. -/
theorem recommend_strict_max_excludes_queried
    {titles : List PyStr} {sim : List (List ℚ)}
    {pP : PyStr → HttpOutcome PosterBody} {tP : PyStr → HttpOutcome TrailerBody}
    {mv : PyStr} {ms : List PyStr} {ps ts : List (Option PyStr)}
    (hnodup : (titles.map normalize).Nodup)
    (hsim : sim.length = titles.length)
    (hrows : ∀ row ∈ sim, row.length = titles.length)
    (hmax : ∀ j, j < titles.length →
      j ≠ firstIdx (titles.map normalize) (normalize mv) →
      (sim.getD (firstIdx (titles.map normalize) (normalize mv)) []).getD j 0 <
        (sim.getD (firstIdx (titles.map normalize) (normalize mv)) []).getD
          (firstIdx (titles.map normalize) (normalize mv)) 0)
    (h : (recommend titles sim pP tP (some mv)).2 = .ok (.three ms ps ts)) :
    normalize mv ∉ ms := by
  obtain ⟨hmem, he⟩ := recommend_ok_three h
  have hidxlen : firstIdx (titles.map normalize) (normalize mv) <
      (titles.map normalize).length := firstIdx_lt_length hmem
  have htlen : (titles.map normalize).length = titles.length := List.length_map titles normalize
  have hidxsim : firstIdx (titles.map normalize) (normalize mv) < sim.length := by omega
  have hdmem : sim.getD (firstIdx (titles.map normalize) (normalize mv)) [] ∈ sim := by
    rw [List.getD_eq_getElem _ _ hidxsim]
    exact List.getElem_mem hidxsim
  have hdlen := hrows _ hdmem
  have hidxd : firstIdx (titles.map normalize) (normalize mv) <
      (sim.getD (firstIdx (titles.map normalize) (normalize mv)) []).length := by omega
  have hnotmem := rank_strict_max_not_mem hidxd (fun j hj hne => hmax j (by omega) hne)
  obtain ⟨hmseq, -, -, -⟩ := enrichLoop_ok he
  intro hin
  rw [hmseq] at hin
  rcases List.mem_map.1 hin with ⟨q, hq, hqt⟩
  have hq1d : q.1 <
      (sim.getD (firstIdx (titles.map normalize) (normalize mv)) []).length :=
    rank_fst_lt hq
  have hq1t : q.1 < (titles.map normalize).length := by omega
  have e1 : (titles.map normalize)[q.1] = normalize mv := by
    rw [← List.getD_eq_getElem (titles.map normalize) [] hq1t]
    exact hqt
  have e2 : (titles.map normalize)[firstIdx (titles.map normalize) (normalize mv)] =
      normalize mv := by
    rw [← List.getD_eq_getElem (titles.map normalize) [] hidxlen]
    exact getD_firstIdx hmem []
  have heq : q.1 = firstIdx (titles.map normalize) (normalize mv) :=
    (List.Nodup.getElem_inj_iff hnodup).1 (e1.trans e2.symm)
  have hq1mem := List.mem_map_of_mem Prod.fst hq
  rw [heq] at hq1mem
  exact hnotmem hq1mem

/-- The clients depend on the provider only through its answer for the
queried title. -/
theorem fetch_movie_poster_congr {pP pP' : PyStr → HttpOutcome PosterBody}
    {u : PyStr} (h : pP' u = pP u) :
    fetch_movie_poster pP' u = fetch_movie_poster pP u := by
  unfold fetch_movie_poster
  rw [h]

theorem fetch_movie_trailer_congr {tP tP' : PyStr → HttpOutcome TrailerBody}
    {u : PyStr} (h : tP' u = tP u) :
    fetch_movie_trailer tP' u = fetch_movie_trailer tP u := by
  unfold fetch_movie_trailer
  rw [h]

/-- Claim C8 (amended): an enrichment miss that the code absorbs (a fetch
returning `None`) is isolated per movie: degrading the providers at one
title `t` to answers whose fetch yields `None` — all other titles
unchanged — the loop still completes with the identical title sequence,
and the only change to the posters and trailers is that the slots at
positions holding `t` become absent; every other slot is unchanged. -/
theorem enrich_miss_isolated
    {titles : List PyStr}
    {pP pP' : PyStr → HttpOutcome PosterBody}
    {tP tP' : PyStr → HttpOutcome TrailerBody}
    {t : PyStr}
    (hpagree : ∀ u, u ≠ t → pP' u = pP u)
    (htagree : ∀ u, u ≠ t → tP' u = tP u)
    (hpmiss : fetch_movie_poster pP' t = .ok none)
    (htmiss : fetch_movie_trailer tP' t = .ok none) :
    ∀ {ml : List (Nat × ℚ)} {ms : List PyStr} {ps ts : List (Option PyStr)},
    enrichLoop titles pP tP ml = .ok (ms, ps, ts) →
    enrichLoop titles pP' tP' ml =
      .ok (ms,
        List.zipWith (fun u p => if u = t then none else p) ms ps,
        List.zipWith (fun u p => if u = t then none else p) ms ts) := by
  intro ml
  induction ml with
  | nil =>
      intro ms ps ts h
      rw [enrichLoop] at h
      injection h with h'
      obtain ⟨rfl, rfl, rfl⟩ : [] = ms ∧ [] = ps ∧ [] = ts := by
        simpa [Prod.ext_iff] using h'
      rfl
  | cons i rest ih =>
      intro ms ps ts h
      rw [enrichLoop] at h
      cases hp : fetch_movie_poster pP (titles.getD i.1 []) with
      | error e => rw [hp] at h; exact absurd h (by simp)
      | ok poster_url =>
          rw [hp] at h
          cases htr : fetch_movie_trailer tP (titles.getD i.1 []) with
          | error e => rw [htr] at h; exact absurd h (by simp)
          | ok trailer_url =>
              rw [htr] at h
              cases hrest : enrichLoop titles pP tP rest with
              | error e => rw [hrest] at h; exact absurd h (by simp)
              | ok triple =>
                  obtain ⟨ms0, ps0, ts0⟩ := triple
                  rw [hrest] at h
                  injection h with h'
                  obtain ⟨h1, h2, h3⟩ : titles.getD i.1 [] :: ms0 = ms ∧
                      poster_url :: ps0 = ps ∧ trailer_url :: ts0 = ts := by
                    simpa [Prod.ext_iff] using h'
                  subst h1; subst h2; subst h3
                  by_cases hit : titles.getD i.1 [] = t
                  · have hp' : fetch_movie_poster pP' (titles.getD i.1 []) = .ok none := by
                      rw [hit]; exact hpmiss
                    have ht' : fetch_movie_trailer tP' (titles.getD i.1 []) = .ok none := by
                      rw [hit]; exact htmiss
                    rw [enrichLoop, hp', ht', ih hrest]
                    have hit' := hit
                    rw [List.getD_eq_getElem?_getD] at hit'
                    simp [hit']
                  · have hp' : fetch_movie_poster pP' (titles.getD i.1 []) =
                        .ok poster_url := by
                      rw [fetch_movie_poster_congr (hpagree _ hit)]; exact hp
                    have ht' : fetch_movie_trailer tP' (titles.getD i.1 []) =
                        .ok trailer_url := by
                      rw [fetch_movie_trailer_congr (htagree _ hit)]; exact htr
                    rw [enrichLoop, hp', ht', ih hrest]
                    have hit' := hit
                    rw [List.getD_eq_getElem?_getD] at hit'
                    simp [hit']

/-- Claim C7 (amended): for every HTTP response the providers actually
deliver, both clients absorb the "miss" cases by returning `None` — a
non-200 status, a well-formed 200 body with a missing or placeholder
poster field, or a missing or empty items array — while a network
failure, a malformed 200 body, or a first search item without a video id
raise the corresponding exception instead. -/
theorem fetch_clients_response_characterization
    (pP : PyStr → HttpOutcome PosterBody) (tP : PyStr → HttpOutcome TrailerBody)
    (t : PyStr) :
    (∀ s b, s ≠ 200 → pP t = .response s b → fetch_movie_poster pP t = .ok none) ∧
    (pP t = .response 200 (some none) → fetch_movie_poster pP t = .ok none) ∧
    (pP t = .response 200 (some (some NA)) → fetch_movie_poster pP t = .ok none) ∧
    (∀ p, pP t = .response 200 (some (some p)) → p ≠ NA →
      fetch_movie_poster pP t = .ok (some p)) ∧
    (pP t = .networkFailure → fetch_movie_poster pP t = .error .connectionError) ∧
    (pP t = .response 200 none → fetch_movie_poster pP t = .error .jsonDecodeError) ∧
    (∀ s b, s ≠ 200 → tP t = .response s b → fetch_movie_trailer tP t = .ok none) ∧
    (tP t = .response 200 (some none) → fetch_movie_trailer tP t = .ok none) ∧
    (tP t = .response 200 (some (some [])) → fetch_movie_trailer tP t = .ok none) ∧
    (∀ vid rest, tP t = .response 200 (some (some (some vid :: rest))) →
      fetch_movie_trailer tP t = .ok (some (youtubeWatch vid))) ∧
    (∀ rest, tP t = .response 200 (some (some (none :: rest))) →
      fetch_movie_trailer tP t = .error .keyError) ∧
    (tP t = .networkFailure → fetch_movie_trailer tP t = .error .connectionError) ∧
    (tP t = .response 200 none → fetch_movie_trailer tP t = .error .jsonDecodeError) := by
  refine ⟨?_, ?_, ?_, ?_, ?_, ?_, ?_, ?_, ?_, ?_, ?_, ?_, ?_⟩
  · intro s b hs h
    simp only [fetch_movie_poster, h]
    rw [if_neg hs]
  · intro h; simp [fetch_movie_poster, h]
  · intro h; simp [fetch_movie_poster, h]
  · intro p h hp; simp [fetch_movie_poster, h, hp]
  · intro h; simp [fetch_movie_poster, h]
  · intro h; simp [fetch_movie_poster, h]
  · intro s b hs h
    simp only [fetch_movie_trailer, h]
    rw [if_neg hs]
  · intro h; simp [fetch_movie_trailer, h]
  · intro h; simp [fetch_movie_trailer, h]
  · intro vid rest h; simp [fetch_movie_trailer, h]
  · intro rest h; simp [fetch_movie_trailer, h]
  · intro h; simp [fetch_movie_trailer, h]
  · intro h; simp [fetch_movie_trailer, h]

/-! ### Witnesses: the hypothesis-bearing theorems hold on concrete runs -/

/-- Witness for C2 (amended) on the scenario catalog: "Inception" scores
strictly above the other two movies in its own row, and indeed its
normalized title is absent from the returned sequence. -/
theorem recommend_strict_max_excludes_queried_witness :
    normalize (pystr "  INCEPTION  ") ∉
      ([pystr "interstellar", pystr "tenet"] : List PyStr) := by
  have h : (recommend exTitles exSim poster404 trailer404
      (some (pystr "  INCEPTION  "))).2 =
      .ok (.three [pystr "interstellar", pystr "tenet"] [none, none] [none, none]) := rfl
  exact recommend_strict_max_excludes_queried (by decide) (by decide) (by decide)
    (by decide) h

/-- Witness for C5 on the scenario catalog of 3 movies: the returned
sequence has length 2 = min 20 (3 - 1). -/
theorem recommend_length_min20_witness :
    ([pystr "interstellar", pystr "tenet"] : List PyStr).length =
      min 20 (exTitles.length - 1) := by
  have h : (recommend exTitles exSim poster404 trailer404
      (some (pystr "Inception"))).2 =
      .ok (.three [pystr "interstellar", pystr "tenet"] [none, none] [none, none]) := rfl
  exact recommend_length_min20 (by decide) (by decide) h

/-- Witness for C9 on a concrete successful run: equal lengths, and slot 0
holds exactly what the poster client fetched for title 0. -/
theorem recommend_positional_alignment_witness :
    ([pystr "interstellar", pystr "tenet"] : List PyStr).length =
      ([none, none] : List (Option PyStr)).length ∧
    fetch_movie_poster poster404
        (([pystr "interstellar", pystr "tenet"] : List PyStr).getD 0 []) =
      .ok (([none, none] : List (Option PyStr)).getD 0 none) := by
  have h : (recommend exTitles exSim poster404 trailer404
      (some (pystr "Inception"))).2 =
      .ok (.three [pystr "interstellar", pystr "tenet"] [none, none] [none, none]) := rfl
  exact ⟨(recommend_positional_alignment h).1,
    ((recommend_positional_alignment h).2.2 0 (by decide)).1⟩

/-- Witness for C7 (amended): a 404 from either provider yields an absent
poster/trailer, not an exception. -/
theorem fetch_clients_response_characterization_witness :
    fetch_movie_poster poster404 (pystr "Tenet") = .ok none ∧
    fetch_movie_trailer trailer404 (pystr "Tenet") = .ok none :=
  ⟨(fetch_clients_response_characterization poster404 trailer404 (pystr "Tenet")).1
      404 none (by decide) rfl,
   (fetch_clients_response_characterization poster404 trailer404
      (pystr "Tenet")).2.2.2.2.2.2.1 404 none (by decide) rfl⟩

/-- Witness for C8 (amended) on a concrete two-movie enrichment run:
degrading both providers to misses for "tenet" only blanks the two
"tenet" slots; "interstellar" keeps its poster and trailer and the loop
still completes. -/
theorem enrich_miss_isolated_witness :
    enrichLoop (exTitles.map normalize) posterMissTenet trailerMissTenet
        [(1, q08), (2, q03)] =
      .ok ([pystr "interstellar", pystr "tenet"],
        [some (pystr "http://img/poster.jpg"), none],
        [some (youtubeWatch (pystr "dQw4w9WgXcQ")), none]) := by
  have h : enrichLoop (exTitles.map normalize) posterOK trailerOK
      [(1, q08), (2, q03)] =
      .ok ([pystr "interstellar", pystr "tenet"],
        [some (pystr "http://img/poster.jpg"), some (pystr "http://img/poster.jpg")],
        [some (youtubeWatch (pystr "dQw4w9WgXcQ")),
          some (youtubeWatch (pystr "dQw4w9WgXcQ"))]) := rfl
  have hpagree : ∀ u, u ≠ pystr "tenet" → posterMissTenet u = posterOK u :=
    fun u hu => by simp [posterMissTenet, hu]
  have htagree : ∀ u, u ≠ pystr "tenet" → trailerMissTenet u = trailerOK u :=
    fun u hu => by simp [trailerMissTenet, hu]
  have hpmiss : fetch_movie_poster posterMissTenet (pystr "tenet") = .ok none := rfl
  have htmiss : fetch_movie_trailer trailerMissTenet (pystr "tenet") = .ok none := rfl
  exact enrich_miss_isolated hpagree htagree hpmiss htmiss h

end MovieApp
